import Mathlib

/-!
Verification of the lifecycle-reconciler core of the azurerm provider
fragment: the relay namespace resource (create/read/delete with the
delete-confirmation polling loop) and the machine-learning workspace
resource (create-time validation and the serverless-compute
expand/flatten pair).

Conventions of the shallow embedding:
* External API calls (`client.Get`, `client.Delete`, `client.CreateOrUpdate`,
  `client.ListKeys`, id parsing) are collaborators: their outcomes are inputs,
  supplied through an environment record.  A Go `(resp, err)` pair from `Get`
  is classified by `GetResult`: success, a 404 error (`response.WasNotFound`),
  or any other error.
* Time is measured in seconds as a `Nat`; the n-th polling tick happens at
  time `n * interval`.
* Go error values built with `fmt.Errorf` are either the literal message
  string or a structured constructor carrying the formatted arguments; each
  constructor's doc comment records the format string it stands for.
-/

namespace AzureRM

/-- Outcome of a single `client.Get` call, classifying the Go pair
`(resp, err)`: `ok` means `err == nil` (the resource exists), `notFound`
means `err != nil` with `response.WasNotFound(resp.HttpResponse)` true
(a 404), `failed msg` means any other non-nil error. -/
inductive GetResult where
  | ok : GetResult
  | notFound : GetResult
  | failed : String → GetResult
  deriving DecidableEq, Repr

/-- Shallow embedding of `relayNamespaceDeleteRefreshFunc`
(relay_namespace_resource.go, lines 221-234).  Given the outcome of the
`client.Get` probe it returns the `(state, error)` pair of the Go
`StateRefreshFunc` (the first Go return value, the raw response object,
is dropped: the wait loop consumes only state and error).  The error
string embeds Go's `fmt.Errorf("retrieving %s: %+v", id, err)`. -/
def relayNamespaceDeleteRefreshFunc (id : String) (g : GetResult) :
    String × Option String :=
  match g with
  | .notFound => ("Deleted", none)
  | .failed msg => ("Error", some ("retrieving " ++ id ++ ": " ++ msg))
  | .ok => ("Pending", none)

/-- Failure of the polling wait: the refresh function returned a non-nil
error, or the deadline elapsed while the state was still not a target. -/
inductive WaitErr where
  | refreshErr : String → WaitErr
  | timedOut : WaitErr
  deriving DecidableEq, Repr

/-- Result of a polling wait: the outcome, the times (seconds since the
wait began) at which the refresh function was invoked, and the elapsed
time at which the wait returned. -/
structure WaitResult where
  outcome : Except WaitErr Unit
  probeTimes : List Nat
  time : Nat
  deriving Repr

/-- Modelled from the spec: one step of `StateChangeConf.WaitForStateContext`
(the hashicorp plugin SDK polling loop behind `pluginsdk.StateChangeConf`;
its implementation is not part of this repository's sources).  Per the spec:
on each tick, separated by the fixed minimum interval, call the refresh
function; if it returns an error, stop and surface it; if it returns a
target state, stop with success; otherwise remain pending and wait for the
next tick; if the deadline elapses while still pending, stop with
`timedOut`.  Tick `n` fires at time `n * interval`; the deadline check
`timeout ≤ n * interval` precedes the tick's refresh call.  `fuel` is an
upper bound on the remaining ticks, supplied by `waitForState` large enough
that it never runs out before the deadline check fires. -/
def waitAux (refresh : Nat → String × Option String) (target : List String)
    (interval timeout : Nat) : Nat → Nat → WaitResult
  | n, 0 => ⟨.error .timedOut, [], n * interval⟩
  | n, fuel + 1 =>
    if timeout ≤ n * interval then
      ⟨.error .timedOut, [], n * interval⟩
    else
      match refresh n with
      | (_, some e) => ⟨.error (.refreshErr e), [n * interval], n * interval⟩
      | (s, none) =>
        if s ∈ target then
          ⟨.ok (), [n * interval], n * interval⟩
        else
          let r := waitAux refresh target interval timeout (n + 1) fuel
          ⟨r.outcome, n * interval :: r.probeTimes, r.time⟩

/-- Modelled from the spec: `StateChangeConf.WaitForStateContext` with the
given refresh function, target states, minimum tick interval and timeout
(all in seconds).  Starts at tick 0 with enough fuel to outlast the
deadline. -/
def waitForState (refresh : Nat → String × Option String) (target : List String)
    (interval timeout : Nat) : WaitResult :=
  waitAux refresh target interval timeout 0 (timeout / interval + 2)

/-- A request issued to the remote API during a lifecycle operation. -/
inductive ApiCall where
  | getReq : ApiCall
  | deleteReq : ApiCall
  | createReq : ApiCall
  deriving DecidableEq, Repr

/-- Error surfaced by `resourceRelayNamespaceDelete`: `parseFail` from
`ParseNamespaceID`, `deleteFail` embeds
`fmt.Errorf("deleting %s: %+v", id, err)`, `waitFail` embeds
`fmt.Errorf("waiting for deletion of %s: %+v", id, err)` wrapping the wait
loop's failure. -/
inductive DeleteErr where
  | parseFail : String → DeleteErr
  | deleteFail : String → DeleteErr
  | waitFail : WaitErr → DeleteErr
  deriving DecidableEq, Repr

/-- Environment of one `Delete` run: outcomes of the external collaborators.
`parseErr` is the error from `namespaces2.ParseNamespaceID` if any,
`deleteErr` the error from the single `client.Delete` request, `get n` the
outcome of the n-th `client.Get` existence probe, `timeout` the
caller-supplied delete timeout in seconds (`d.Timeout(TimeoutDelete)`). -/
structure DeleteEnv where
  parseErr : Option String
  deleteErr : Option String
  get : Nat → GetResult
  timeout : Nat

/-- Observable result of one `Delete` run: the returned outcome, the trace
of API requests issued, the times of the existence probes, and the elapsed
time at return. -/
structure DeleteRun where
  outcome : Except DeleteErr Unit
  calls : List ApiCall
  probeTimes : List Nat
  time : Nat
  deriving Repr

/-- Shallow embedding of `resourceRelayNamespaceDelete`
(relay_namespace_resource.go, lines 190-219): parse the stored id, issue a
single `client.Delete` request, then wait for the delete-confirmation poll
(`StateChangeConf` with Pending=["Pending"], Target=["Deleted"],
MinTimeout=15s, Timeout=the delete timeout) driven by
`relayNamespaceDeleteRefreshFunc`. -/
def resourceRelayNamespaceDelete (id : String) (env : DeleteEnv) : DeleteRun :=
  match env.parseErr with
  | some e => ⟨.error (.parseFail e), [], [], 0⟩
  | none =>
    match env.deleteErr with
    | some e =>
      ⟨.error (.deleteFail ("deleting " ++ id ++ ": " ++ e)), [.deleteReq], [], 0⟩
    | none =>
      let w := waitForState (fun n => relayNamespaceDeleteRefreshFunc id (env.get n))
        ["Deleted"] 15 env.timeout
      ⟨match w.outcome with
        | .ok _ => .ok ()
        | .error e => .error (.waitFail e),
       .deleteReq :: w.probeTimes.map (fun _ => ApiCall.getReq),
       w.probeTimes, w.time⟩

/-- Environment of one relay `Read` run: `parseErr` from
`namespaces2.ParseNamespaceID(d.Id())`, `get` the outcome of the single
`client.Get`, `listKeysErr` the error from `client.ListKeys` if any. -/
structure ReadEnv where
  parseErr : Option String
  get : GetResult
  listKeysErr : Option String

/-- Shallow embedding of `resourceRelayNamespaceRead`
(relay_namespace_resource.go, lines 135-188), restricted to its effect on
the stored resource id and its returned error.  The first component of the
result is the stored id after the run (`d.SetId("")` clears it on a 404);
the second is the returned outcome.  Error strings embed
`fmt.Errorf("retrieving %s: %+v", ...)` and
`fmt.Errorf("listing keys for %s: %+v", ...)`; the `d.Set` calls that
populate the other fields on the success path are not observable here. -/
def resourceRelayNamespaceRead (storedId : String) (env : ReadEnv) :
    String × Except String Unit :=
  match env.parseErr with
  | some e => (storedId, .error e)
  | none =>
    match env.get with
    | .notFound => ("", .ok ())
    | .failed msg => (storedId, .error ("retrieving " ++ storedId ++ ": " ++ msg))
    | .ok =>
      match env.listKeysErr with
      | some e => (storedId, .error ("listing keys for " ++ storedId ++ ": " ++ e))
      | none => (storedId, .ok ())

/-- Error surfaced by a create/update run.  `checkExisting` embeds
`fmt.Errorf("checking for presence of existing %s: %+v", id, err)`;
`importAsExists` embeds `tf.ImportAsExistsError(resourceType, id)`;
`expandFail` an expand error wrapped by `fmt.Errorf`; `validation` one of
the literal validation messages; `createFail` embeds
`fmt.Errorf("creating/updating %s: %+v", id, err)`; `readFail` the error of
the trailing Read call. -/
inductive CreateErr where
  | checkExisting : String → CreateErr
  | importAsExists : String → String → CreateErr
  | expandFail : String → CreateErr
  | validation : String → CreateErr
  | createFail : String → CreateErr
  | readFail : String → CreateErr
  deriving DecidableEq, Repr

/-- New-resource guard shared verbatim by `resourceRelayNamespaceCreateUpdate`
(relay_namespace_resource.go, lines 103-114) and
`resourceMachineLearningWorkspaceCreateOrUpdate` (lines 290-300): when the
resource is new, issue `client.Get`; a non-404 error surfaces as
`checkExisting`; a successful read (`response.WasNotFound` false, the
resource exists) surfaces as `importAsExists`; only a 404 lets the create
proceed. -/
def newResourceGuard (resourceType id : String) (g : GetResult) :
    Option CreateErr :=
  match g with
  | .failed msg =>
    some (.checkExisting ("checking for presence of existing " ++ id ++ ": " ++ msg))
  | .ok => some (.importAsExists resourceType id)
  | .notFound => none

/-- Environment of one relay create/update run: `isNew` is
`d.IsNewResource()`, `existingGet` the outcome of the up-front existence
`client.Get` (issued only when `isNew`), `createErr` the error from
`client.CreateOrUpdateThenPoll` if any, `readErr` the error from the
trailing `resourceRelayNamespaceRead` call if any. -/
structure CreateEnv where
  isNew : Bool
  existingGet : GetResult
  createErr : Option String
  readErr : Option String

/-- Observable result of one create/update run: the returned outcome, the
trace of API requests issued by the function itself (the trailing Read's
own requests are abstracted into `readErr`), and whether `d.SetId` was
called with the new id. -/
structure CreateRun where
  outcome : Except CreateErr Unit
  calls : List ApiCall
  idSet : Bool
  deriving Repr

/-- Shallow embedding of `resourceRelayNamespaceCreateUpdate`
(relay_namespace_resource.go, lines 94-133): new-resource guard, then the
`client.CreateOrUpdateThenPoll` request, then `d.SetId` followed by the
Read call. -/
def resourceRelayNamespaceCreateUpdate (id : String) (env : CreateEnv) :
    CreateRun :=
  let preCalls : List ApiCall := if env.isNew then [.getReq] else []
  match (if env.isNew then newResourceGuard "azurerm_relay_namespace" id env.existingGet
         else none) with
  | some e => ⟨.error e, preCalls, false⟩
  | none =>
    match env.createErr with
    | some e =>
      ⟨.error (.createFail ("creating/updating " ++ id ++ ": " ++ e)),
       preCalls ++ [.createReq], false⟩
    | none =>
      match env.readErr with
      | some e => ⟨.error (.readFail e), preCalls ++ [.createReq], true⟩
      | none => ⟨.ok (), preCalls ++ [.createReq], true⟩

/-- The Go struct `workspaces.ComputeRuntimeDto` (pointer fields become
`Option`). -/
structure ComputeRuntimeDto where
  SparkRuntimeVersion : Option String
  deriving DecidableEq, Repr

/-- The Go struct `workspaces.FeatureStoreSettings`. -/
structure FeatureStoreSettings where
  ComputeRuntime : Option ComputeRuntimeDto
  OfflineStoreConnectionName : Option String
  OnlineStoreConnectionName : Option String
  deriving DecidableEq, Repr

/-- The Go struct `workspaces.ServerlessComputeSettings` (pointer fields
become `Option`). -/
structure ServerlessComputeSettings where
  ServerlessComputeNoPublicIP : Option Bool
  ServerlessComputeCustomSubnet : Option String
  deriving DecidableEq, Repr

/-- One `feature_store` configuration block as read from the schema
(`d.Get("feature_store")`): all three attributes are plain strings,
defaulting to the empty string. -/
structure FeatureStoreRaw where
  computer_spark_runtime_version : String
  offline_connection_name : String
  online_connection_name : String
  deriving DecidableEq, Repr

/-- One `serverless_compute` configuration block as read from the schema
(`d.Get("serverless_compute")`). -/
structure ServerlessRaw where
  public_ip_enabled : Bool
  subnet_id : String
  deriving DecidableEq, Repr

/-- The flattened `serverless_compute` block: a Go
`map[string]interface{}` whose keys are written conditionally, so each is
an `Option`. -/
structure ServerlessFlat where
  subnet_id : Option String
  public_ip_enabled : Option Bool
  deriving DecidableEq, Repr

/-- Shallow embedding of `expandMachineLearningWorkspaceFeatureStore`
(part_000, lines 640-662).  The Go `[]interface{}` input with zero or a
nil first element becomes `none`. -/
def expandMachineLearningWorkspaceFeatureStore (input : Option FeatureStoreRaw) :
    Option FeatureStoreSettings :=
  match input with
  | none => none
  | some raw =>
    some
      { ComputeRuntime :=
          if raw.computer_spark_runtime_version ≠ "" then
            some { SparkRuntimeVersion := some raw.computer_spark_runtime_version }
          else none
        OfflineStoreConnectionName :=
          if raw.offline_connection_name ≠ "" then some raw.offline_connection_name
          else none
        OnlineStoreConnectionName :=
          if raw.online_connection_name ≠ "" then some raw.online_connection_name
          else none }

/-- Shallow embedding of `expandMachineLearningWorkspaceServerlessCompute`
(part_000, lines 719-735): `ServerlessComputeNoPublicIP` is the negation of
the block's `public_ip_enabled`, and `ServerlessComputeCustomSubnet` is set
only when `subnet_id` is a non-empty string. -/
def expandMachineLearningWorkspaceServerlessCompute (i : Option ServerlessRaw) :
    Option ServerlessComputeSettings :=
  match i with
  | none => none
  | some v =>
    some
      { ServerlessComputeNoPublicIP := some (!v.public_ip_enabled)
        ServerlessComputeCustomSubnet :=
          if v.subnet_id ≠ "" then some v.subnet_id else none }

/-- Shallow embedding of `flattenMachineLearningWorkspaceServerlessCompute`
(part_000, lines 737-753): a nil input flattens to the empty list; otherwise
the `subnet_id` key is written only when the custom subnet pointer is
non-nil, and `public_ip_enabled` (the negation of the no-public-ip flag)
only when that pointer is non-nil. -/
def flattenMachineLearningWorkspaceServerlessCompute
    (i : Option ServerlessComputeSettings) : List ServerlessFlat :=
  match i with
  | none => []
  | some s =>
    [{ subnet_id := s.ServerlessComputeCustomSubnet
       public_ip_enabled := s.ServerlessComputeNoPublicIP.map (fun b => !b) }]

/-- Model of Go's `strings.EqualFold` as used on the workspace `kind`:
equality after per-character lower-casing (ASCII case folding suffices for
the literals compared here). -/
def eqFold (a b : String) : Bool :=
  a.data.map Char.toLower == b.data.map Char.toLower

/-- Shallow embedding of the two serverless-compute guards of
`resourceMachineLearningWorkspaceCreateOrUpdate` (part_000, lines 339-350).
The Go code dereferences `ServerlessComputeNoPublicIP` (always non-nil for
an expanded block, modelled with `Option.getD`); the second guard compares
the old and new values of `serverless_compute.0.public_ip_enabled` from
`d.GetChange`. -/
def serverlessComputeGuard (sc : Option ServerlessComputeSettings)
    (networkAccessBehindVnetEnabled oldPublicIp newPublicIp : Bool) :
    Option CreateErr :=
  match sc with
  | none => none
  | some s =>
    if s.ServerlessComputeNoPublicIP.getD false
        && s.ServerlessComputeCustomSubnet == none
        && !networkAccessBehindVnetEnabled then
      some (.validation
        "`public_ip_enabled` must be set to  `true` if `subnet_id` is not set and `public_network_access_enabled` is `false`")
    else if s.ServerlessComputeCustomSubnet == none
        && (oldPublicIp && !newPublicIp) then
      some (.validation
        " Not supported to update `public_ip_enabled` from `true` to `false` when `subnet_id` is null or empty")
    else none

/-- Shallow embedding of the kind/feature_store validation of
`resourceMachineLearningWorkspaceCreateOrUpdate` (part_000, lines 382-392):
with a `Default` kind (case-insensitively) a supplied feature store is an
error; with any other kind a missing feature store is an error and a
present one becomes the request's `FeatureStoreSettings` field. -/
def mlFeatureStoreCheck (kind : String) (fs : Option FeatureStoreSettings) :
    Except CreateErr (Option FeatureStoreSettings) :=
  if eqFold kind "Default" then
    match fs with
    | some _ => .error (.validation "`feature_store` can only be set when `kind` is `FeatureStore`")
    | none => .ok none
  else
    match fs with
    | none => .error (.validation "`feature_store` can not be empty when `kind` is `FeatureStore`")
    | some f => .ok (some f)

/-- The claim-relevant fields of the `workspaces.Workspace` request body
sent by `client.CreateOrUpdate`. -/
structure MLRequestProps where
  FeatureStoreSettings : Option FeatureStoreSettings
  ServerlessComputeSettings : Option ServerlessComputeSettings
  deriving DecidableEq, Repr

/-- Environment of one machine-learning workspace create-or-update run:
outcomes of the external collaborators plus the claim-relevant
configuration fields.  `identityErr` is the error from
`expandMachineLearningWorkspaceIdentity` if any (that expand wraps the
external `identity.ExpandSystemAndUserAssignedMap`); `oldPublicIp` /
`newPublicIp` are `d.GetChange("serverless_compute.0.public_ip_enabled")`;
`createErr` covers both `client.CreateOrUpdate` and its
`PollUntilDone`. -/
structure MLEnv where
  isNew : Bool
  existingGet : GetResult
  identityErr : Option String
  kind : String
  featureStore : Option FeatureStoreRaw
  serverlessCompute : Option ServerlessRaw
  publicNetworkAccessEnabled : Bool
  oldPublicIp : Bool
  newPublicIp : Bool
  createErr : Option String
  readErr : Option String

/-- Observable result of one machine-learning workspace create-or-update
run: outcome, trace of API requests issued by the function itself, the
request body if one was sent, and whether `d.SetId` was called. -/
structure MLRun where
  outcome : Except CreateErr Unit
  calls : List ApiCall
  sentRequest : Option MLRequestProps
  idSet : Bool
  deriving Repr

/-- Shallow embedding of `resourceMachineLearningWorkspaceCreateOrUpdate`
(part_000, lines 283-405), keeping the source's order of effects:
new-resource guard, identity expand, serverless-compute expand and guards,
kind/feature_store validation, then the single `client.CreateOrUpdate`
request (with its long-running poll) followed by `d.SetId` and the Read
call.  Expands that cannot fail and fields irrelevant to the claims are
not tracked; `fmt.Errorf("expanding identity: ...)` is `expandFail`. -/
def resourceMachineLearningWorkspaceCreateOrUpdate (id : String) (env : MLEnv) :
    MLRun :=
  let preCalls : List ApiCall := if env.isNew then [.getReq] else []
  match (if env.isNew then
           newResourceGuard "azurerm_machine_learning_workspace" id env.existingGet
         else none) with
  | some e => ⟨.error e, preCalls, none, false⟩
  | none =>
    match env.identityErr with
    | some e => ⟨.error (.expandFail ("expanding `identity`: " ++ e)), preCalls, none, false⟩
    | none =>
      let serverless := expandMachineLearningWorkspaceServerlessCompute env.serverlessCompute
      match serverlessComputeGuard serverless env.publicNetworkAccessEnabled
          env.oldPublicIp env.newPublicIp with
      | some e => ⟨.error e, preCalls, none, false⟩
      | none =>
        match mlFeatureStoreCheck env.kind
            (expandMachineLearningWorkspaceFeatureStore env.featureStore) with
        | .error e => ⟨.error e, preCalls, none, false⟩
        | .ok fsField =>
          let req : MLRequestProps := ⟨fsField, serverless⟩
          match env.createErr with
          | some e =>
            ⟨.error (.createFail ("creating/updating " ++ id ++ ": " ++ e)),
             preCalls ++ [.createReq], some req, false⟩
          | none =>
            match env.readErr with
            | some e => ⟨.error (.readFail e), preCalls ++ [.createReq], some req, true⟩
            | none => ⟨.ok (), preCalls ++ [.createReq], some req, true⟩

/-- Environment of one machine-learning workspace `Read` run: `parseErr`
from `workspaces.ParseWorkspaceID(d.Id())`, `get` the outcome of the single
`client.Get`, `restErr` the first error, if any, raised by the success
path's nested parses and sets (application-insights id parse, key-vault id
parse, identity/feature_store/encryption flatten-and-set, tag set). -/
structure MLReadEnv where
  parseErr : Option String
  get : GetResult
  restErr : Option String

/-- Shallow embedding of `resourceMachineLearningWorkspaceRead` (part_000,
lines 407-497), restricted to its effect on the stored resource id and its
returned error.  The first component of the result is the stored id after
the run (`d.SetId("")` clears it on a 404); the second is the returned
outcome.  The error strings embed
`fmt.Errorf("parsing Machine Learning Workspace ID `%q`: %+v", d.Id(), err)`
and `fmt.Errorf("making Read request on Workspace %q (Resource Group %q):
%+v", id.WorkspaceName, id.ResourceGroupName, err)` (`%q` wraps its
argument in double quotes); `workspaceName` and `resourceGroupName` are
the components of the parsed id.  The `d.Set` calls populating the other
fields on the success path are collapsed into `restErr`. -/
def resourceMachineLearningWorkspaceRead
    (storedId workspaceName resourceGroupName : String) (env : MLReadEnv) :
    String × Except String Unit :=
  match env.parseErr with
  | some e =>
    (storedId, .error ("parsing Machine Learning Workspace ID `\"" ++ storedId
      ++ "\"`: " ++ e))
  | none =>
    match env.get with
    | .notFound => ("", .ok ())
    | .failed msg =>
      (storedId, .error ("making Read request on Workspace \"" ++ workspaceName
        ++ "\" (Resource Group \"" ++ resourceGroupName ++ "\"): " ++ msg))
    | .ok =>
      match env.restErr with
      | some e => (storedId, .error e)
      | none => (storedId, .ok ())

/-- If every tick of the wait refreshes to a pending (non-target,
error-free) state, the wait times out: the outcome is `timedOut`, the
return time stays below `timeout + interval`, and every probe fires
strictly before the deadline. -/
theorem waitAux_always_pending (refresh : Nat → String × Option String)
    (target : List String) (interval timeout : Nat)
    (hR : ∀ m, refresh m = ("Pending", none)) (hP : "Pending" ∉ target) :
    ∀ fuel n, n * interval < timeout + interval →
      timeout ≤ (n + fuel) * interval →
      (waitAux refresh target interval timeout n fuel).outcome = .error .timedOut ∧
      (waitAux refresh target interval timeout n fuel).time < timeout + interval ∧
      ∀ t ∈ (waitAux refresh target interval timeout n fuel).probeTimes, t < timeout := by
  intro fuel
  induction fuel with
  | zero =>
    intro n hn _
    simp only [waitAux]
    exact ⟨trivial, hn, by simp⟩
  | succ fuel ih =>
    intro n hn hf
    by_cases hdl : timeout ≤ n * interval
    · simp only [waitAux, if_pos hdl]
      exact ⟨trivial, hn, by simp⟩
    · have hlt : n * interval < timeout := Nat.lt_of_not_le hdl
      have hexp : (n + 1) * interval = n * interval + interval := by ring
      have hexp2 : (n + 1 + fuel) * interval = (n + (fuel + 1)) * interval := by ring
      have hrec := ih (n + 1) (by omega) (by omega)
      simp only [waitAux, if_neg hdl, hR n, if_neg hP]
      refine ⟨hrec.1, hrec.2.1, ?_⟩
      intro t ht
      simp only [List.mem_cons] at ht
      rcases ht with h | h
      · omega
      · exact hrec.2.2 t h

/-- Unfolding `waitAux` at a tick whose refresh stays pending: the tick's
probe time is prepended and the wait continues at the next tick. -/
theorem waitAux_step_pending (R : Nat → String × Option String)
    (target : List String) (interval T n fuel : Nat) (s : String)
    (hdl : ¬ T ≤ n * interval) (hR : R n = (s, none)) (hs : s ∉ target) :
    waitAux R target interval T n (fuel + 1) =
      ⟨(waitAux R target interval T (n + 1) fuel).outcome,
       n * interval :: (waitAux R target interval T (n + 1) fuel).probeTimes,
       (waitAux R target interval T (n + 1) fuel).time⟩ := by
  simp only [waitAux, if_neg hdl, hR, if_neg hs]

/-- Unfolding `waitAux` at a tick whose refresh reaches a target state:
the wait returns success at this tick. -/
theorem waitAux_step_target (R : Nat → String × Option String)
    (target : List String) (interval T n fuel : Nat) (s : String)
    (hdl : ¬ T ≤ n * interval) (hR : R n = (s, none)) (hs : s ∈ target) :
    waitAux R target interval T n (fuel + 1) =
      ⟨.ok (), [n * interval], n * interval⟩ := by
  simp only [waitAux, if_neg hdl, hR, if_pos hs]

/-- Unfolding `waitAux` at a tick whose refresh returns an error: the wait
stops at this tick surfacing the error. -/
theorem waitAux_step_err (R : Nat → String × Option String)
    (target : List String) (interval T n fuel : Nat) (s e : String)
    (hdl : ¬ T ≤ n * interval) (hR : R n = (s, some e)) :
    waitAux R target interval T n (fuel + 1) =
      ⟨.error (.refreshErr e), [n * interval], n * interval⟩ := by
  simp only [waitAux, if_neg hdl, hR]

/-- If, starting at tick `n`, the probe finds the resource for `k` ticks
and then observes a 404, the relay delete wait succeeds at tick `n + k`,
having probed exactly at the `k + 1` tick times. -/
theorem relayWaitAux_pending_then_deleted (id : String) (get : Nat → GetResult)
    (T k : Nat) :
    ∀ n fuel, (∀ m, m < k → get (n + m) = .ok) → get (n + k) = .notFound →
      (n + k) * 15 < T → k < fuel →
      waitAux (fun m => relayNamespaceDeleteRefreshFunc id (get m)) ["Deleted"] 15 T n fuel
        = ⟨.ok (), (List.range (k + 1)).map (fun m => (n + m) * 15), (n + k) * 15⟩ := by
  induction k with
  | zero =>
    intro n fuel _ hk hT hf
    obtain ⟨f, rfl⟩ : ∃ f, fuel = f + 1 := ⟨fuel - 1, by omega⟩
    have hk' : get n = .notFound := by simpa using hk
    have hR : relayNamespaceDeleteRefreshFunc id (get n) = ("Deleted", none) := by
      rw [hk']
      rfl
    have hdl : ¬ T ≤ n * 15 := by omega
    rw [waitAux_step_target (fun m => relayNamespaceDeleteRefreshFunc id (get m))
      ["Deleted"] 15 T n f "Deleted" hdl hR (by decide)]
    simp [List.range_succ]
  | succ k ih =>
    intro n fuel h hk hT hf
    obtain ⟨f, rfl⟩ : ∃ f, fuel = f + 1 := ⟨fuel - 1, by omega⟩
    have hmono : n * 15 ≤ (n + (k + 1)) * 15 := by nlinarith
    have h0 : get n = .ok := by simpa using h 0 (by omega)
    have h1 : ∀ m, m < k → get ((n + 1) + m) = .ok := by
      intro m hm
      have e : (n + 1) + m = n + (m + 1) := by omega
      rw [e]
      exact h (m + 1) (by omega)
    have h2 : get ((n + 1) + k) = .notFound := by
      have e : (n + 1) + k = n + (k + 1) := by omega
      rw [e]
      exact hk
    have h3 : ((n + 1) + k) * 15 < T := by omega
    have h4 : k < f := by omega
    have hrec := ih (n + 1) f h1 h2 h3 h4
    have hR : relayNamespaceDeleteRefreshFunc id (get n) = ("Pending", none) := by
      rw [h0]
      rfl
    have hdl : ¬ T ≤ n * 15 := by omega
    rw [waitAux_step_pending (fun m => relayNamespaceDeleteRefreshFunc id (get m))
      ["Deleted"] 15 T n f "Pending" hdl hR (by decide)]
    rw [hrec]
    refine congrArg₂ (WaitResult.mk (Except.ok ()))
      ?_ (show ((n + 1) + k) * 15 = (n + (k + 1)) * 15 by ring)
    show (n * 15) :: List.map (fun m => ((n + 1) + m) * 15) (List.range (k + 1))
        = List.map (fun m => (n + m) * 15) (List.range (k + 1 + 1))
    conv_rhs => rw [List.range_succ_eq_map]
    simp only [List.map_cons, List.map_map]
    refine congrArg₂ List.cons ?_ ?_
    · show n * 15 = (n + 0) * 15
      omega
    · apply List.map_congr_left
      intro a _
      show ((n + 1) + a) * 15 = (n + Nat.succ a) * 15
      omega

/-- If, starting at tick `n`, the probe finds the resource for `k` ticks
and then fails with a non-404 error, the relay delete wait stops at tick
`n + k` surfacing the refresh error (which embeds the identity), having
probed exactly at the `k + 1` tick times. -/
theorem relayWaitAux_pending_then_failed (id : String) (get : Nat → GetResult)
    (T k : Nat) (msg : String) :
    ∀ n fuel, (∀ m, m < k → get (n + m) = .ok) → get (n + k) = .failed msg →
      (n + k) * 15 < T → k < fuel →
      waitAux (fun m => relayNamespaceDeleteRefreshFunc id (get m)) ["Deleted"] 15 T n fuel
        = ⟨.error (.refreshErr ("retrieving " ++ id ++ ": " ++ msg)),
           (List.range (k + 1)).map (fun m => (n + m) * 15), (n + k) * 15⟩ := by
  induction k with
  | zero =>
    intro n fuel _ hk hT hf
    obtain ⟨f, rfl⟩ : ∃ f, fuel = f + 1 := ⟨fuel - 1, by omega⟩
    have hk' : get n = .failed msg := by simpa using hk
    have hR : relayNamespaceDeleteRefreshFunc id (get n)
        = ("Error", some ("retrieving " ++ id ++ ": " ++ msg)) := by
      rw [hk']
      rfl
    have hdl : ¬ T ≤ n * 15 := by omega
    rw [waitAux_step_err (fun m => relayNamespaceDeleteRefreshFunc id (get m))
      ["Deleted"] 15 T n f "Error" ("retrieving " ++ id ++ ": " ++ msg) hdl hR]
    simp [List.range_succ]
  | succ k ih =>
    intro n fuel h hk hT hf
    obtain ⟨f, rfl⟩ : ∃ f, fuel = f + 1 := ⟨fuel - 1, by omega⟩
    have hmono : n * 15 ≤ (n + (k + 1)) * 15 := by nlinarith
    have h0 : get n = .ok := by simpa using h 0 (by omega)
    have h1 : ∀ m, m < k → get ((n + 1) + m) = .ok := by
      intro m hm
      have e : (n + 1) + m = n + (m + 1) := by omega
      rw [e]
      exact h (m + 1) (by omega)
    have h2 : get ((n + 1) + k) = .failed msg := by
      have e : (n + 1) + k = n + (k + 1) := by omega
      rw [e]
      exact hk
    have h3 : ((n + 1) + k) * 15 < T := by omega
    have h4 : k < f := by omega
    have hrec := ih (n + 1) f h1 h2 h3 h4
    have hR : relayNamespaceDeleteRefreshFunc id (get n) = ("Pending", none) := by
      rw [h0]
      rfl
    have hdl : ¬ T ≤ n * 15 := by omega
    rw [waitAux_step_pending (fun m => relayNamespaceDeleteRefreshFunc id (get m))
      ["Deleted"] 15 T n f "Pending" hdl hR (by decide)]
    rw [hrec]
    refine congrArg₂ (WaitResult.mk _)
      ?_ (show ((n + 1) + k) * 15 = (n + (k + 1)) * 15 by ring)
    show (n * 15) :: List.map (fun m => ((n + 1) + m) * 15) (List.range (k + 1))
        = List.map (fun m => (n + m) * 15) (List.range (k + 1 + 1))
    conv_rhs => rw [List.range_succ_eq_map]
    simp only [List.map_cons, List.map_map]
    refine congrArg₂ List.cons ?_ ?_
    · show n * 15 = (n + 0) * 15
      omega
    · apply List.map_congr_left
      intro a _
      show ((n + 1) + a) * 15 = (n + Nat.succ a) * 15
      omega

/-- A successful relay delete wait can only come from a probe that
observed a 404. -/
theorem relayWaitAux_ok_imp_notFound (id : String) (get : Nat → GetResult)
    (T : Nat) :
    ∀ fuel n,
      (waitAux (fun m => relayNamespaceDeleteRefreshFunc id (get m))
        ["Deleted"] 15 T n fuel).outcome = .ok () →
      ∃ m, get m = .notFound := by
  intro fuel
  induction fuel with
  | zero =>
    intro n h
    simp [waitAux] at h
  | succ fuel ih =>
    intro n h
    by_cases hdl : T ≤ n * 15
    · simp [waitAux, if_pos hdl] at h
    · cases hg : get n with
      | notFound => exact ⟨n, hg⟩
      | ok =>
        have hR : relayNamespaceDeleteRefreshFunc id (get n) = ("Pending", none) := by
          rw [hg]
          rfl
        rw [waitAux_step_pending (fun m => relayNamespaceDeleteRefreshFunc id (get m))
          ["Deleted"] 15 T n fuel "Pending" hdl hR (by decide)] at h
        exact ih (n + 1) h
      | failed msg =>
        have hR : relayNamespaceDeleteRefreshFunc id (get n)
            = ("Error", some ("retrieving " ++ id ++ ": " ++ msg)) := by
          rw [hg]
          rfl
        rw [waitAux_step_err (fun m => relayNamespaceDeleteRefreshFunc id (get m))
          ["Deleted"] 15 T n fuel "Error" ("retrieving " ++ id ++ ": " ++ msg) hdl hR] at h
        simp at h

/-- Fuel adequacy: a tick that fires strictly before the deadline is
within the fuel budget of `waitForState`. -/
theorem fuel_adequate (T k : Nat) (h : k * 15 < T) : k < T / 15 + 2 := by
  have h15 : k ≤ T / 15 := (Nat.le_div_iff_mul_le (by norm_num)).mpr (le_of_lt h)
  omega

/-- C1: Delete is idempotent — for any identity, a second Delete call after
the resource was already deleted (so its first existence probe immediately
observes NotFound, and the redundant delete request is accepted) returns
success, with exactly one probe performed at time 0 and no error
surfaced. -/
theorem relayDelete_idempotent_second_call (id : String) (env : DeleteEnv)
    (hp : env.parseErr = none) (hd : env.deleteErr = none)
    (h0 : env.get 0 = .notFound) (ht : 0 < env.timeout) :
    (resourceRelayNamespaceDelete id env).outcome = .ok () ∧
    (resourceRelayNamespaceDelete id env).probeTimes = [0] := by
  have hw := relayWaitAux_pending_then_deleted id env.get env.timeout 0 0
      (env.timeout / 15 + 2) (fun m hm => absurd hm (by omega))
      (by simpa using h0) (by omega) (by omega)
  simp only [resourceRelayNamespaceDelete, hp, hd, waitForState, hw]
  norm_num [List.range_succ]

/-- C1 witness: a concrete second Delete whose first probe is a 404
succeeds after that single probe. -/
theorem relayDelete_idempotent_second_call_witness :
    (resourceRelayNamespaceDelete "ns1" ⟨none, none, fun _ => .notFound, 3600⟩).outcome
      = .ok () ∧
    (resourceRelayNamespaceDelete "ns1" ⟨none, none, fun _ => .notFound, 3600⟩).probeTimes
      = [0] :=
  relayDelete_idempotent_second_call "ns1" ⟨none, none, fun _ => .notFound, 3600⟩
    rfl rfl rfl (by norm_num)

/-- C2: error short-circuit — if the existence probe fails with a non-404
error at tick `j` (having found the resource on every earlier tick, with
tick `j` inside the deadline), Delete stops at tick `j` with exactly
`j + 1` probes performed and surfaces the refresh error, whose message
carries the identity. -/
theorem relayDelete_error_short_circuit (id : String) (env : DeleteEnv)
    (j : Nat) (msg : String)
    (hp : env.parseErr = none) (hd : env.deleteErr = none)
    (h : ∀ m, m < j → env.get m = .ok) (hj : env.get j = .failed msg)
    (hT : j * 15 < env.timeout) :
    (resourceRelayNamespaceDelete id env).outcome
      = .error (.waitFail (.refreshErr ("retrieving " ++ id ++ ": " ++ msg))) ∧
    (resourceRelayNamespaceDelete id env).probeTimes.length = j + 1 ∧
    (resourceRelayNamespaceDelete id env).time = j * 15 := by
  have hw := relayWaitAux_pending_then_failed id env.get env.timeout j msg 0
      (env.timeout / 15 + 2) (fun m hm => by simpa using h m hm)
      (by simpa using hj) (by simpa using hT)
      (fuel_adequate env.timeout j hT)
  simp only [resourceRelayNamespaceDelete, hp, hd, waitForState, hw]
  simp

/-- C2 witness: a probe stream that finds the resource twice and then
fails with a non-404 error stops after the third probe at 30 seconds,
surfacing the error with the identity in its message. -/
theorem relayDelete_error_short_circuit_witness :
    (resourceRelayNamespaceDelete "ns2"
        ⟨none, none, fun n => if n < 2 then .ok else .failed "boom", 3600⟩).outcome
      = .error (.waitFail (.refreshErr "retrieving ns2: boom")) ∧
    (resourceRelayNamespaceDelete "ns2"
        ⟨none, none, fun n => if n < 2 then .ok else .failed "boom", 3600⟩).probeTimes.length
      = 3 ∧
    (resourceRelayNamespaceDelete "ns2"
        ⟨none, none, fun n => if n < 2 then .ok else .failed "boom", 3600⟩).time
      = 30 :=
  relayDelete_error_short_circuit "ns2"
    ⟨none, none, fun n => if n < 2 then .ok else .failed "boom", 3600⟩ 2 "boom"
    rfl rfl
    (fun m hm => by
      have : m = 0 ∨ m = 1 := by omega
      rcases this with rfl | rfl <;> rfl)
    rfl (by norm_num)

/-- C3: deadline respected — if every probe finds the resource still
present, Delete returns a timeout error, at an elapsed time strictly
below the caller-supplied deadline plus one 15-second tick, and no probe
is ever issued at or past the deadline. -/
theorem relayDelete_deadline_respected (id : String) (env : DeleteEnv)
    (hp : env.parseErr = none) (hd : env.deleteErr = none)
    (hg : ∀ n, env.get n = .ok) :
    (resourceRelayNamespaceDelete id env).outcome = .error (.waitFail .timedOut) ∧
    (resourceRelayNamespaceDelete id env).time < env.timeout + 15 ∧
    ∀ t ∈ (resourceRelayNamespaceDelete id env).probeTimes, t < env.timeout := by
  have hR : ∀ m, (fun n => relayNamespaceDeleteRefreshFunc id (env.get n)) m
      = ("Pending", none) := by
    intro m
    simp only [hg m]
    rfl
  have hw := waitAux_always_pending
      (fun n => relayNamespaceDeleteRefreshFunc id (env.get n)) ["Deleted"]
      15 env.timeout hR (by decide)
      (env.timeout / 15 + 2) 0 (by omega) (by omega)
  simp only [resourceRelayNamespaceDelete, hp, hd, waitForState]
  exact ⟨by rw [hw.1], hw.2.1, hw.2.2⟩

/-- C3 witness: with a 20-second timeout and a probe that always finds the
resource, Delete times out, returning before 35 seconds with every probe
before the 20-second deadline. -/
theorem relayDelete_deadline_respected_witness :
    (resourceRelayNamespaceDelete "ns3" ⟨none, none, fun _ => .ok, 20⟩).outcome
      = .error (.waitFail .timedOut) ∧
    (resourceRelayNamespaceDelete "ns3" ⟨none, none, fun _ => .ok, 20⟩).time < 20 + 15 ∧
    ∀ t ∈ (resourceRelayNamespaceDelete "ns3" ⟨none, none, fun _ => .ok, 20⟩).probeTimes,
      t < 20 :=
  relayDelete_deadline_respected "ns3" ⟨none, none, fun _ => .ok, 20⟩
    rfl rfl (fun _ => rfl)

/-- C5: poll floor and fetch count — if the probe finds the resource for
`k` consecutive ticks and then observes NotFound (inside the deadline),
the reconciler performs exactly `k + 1` probes, at times `0, 15, 30, …`,
consecutive probes separated by at least the minimum 15-second tick
interval. -/
theorem relayDelete_poll_floor (id : String) (env : DeleteEnv) (k : Nat)
    (hp : env.parseErr = none) (hd : env.deleteErr = none)
    (h : ∀ m, m < k → env.get m = .ok) (hk : env.get k = .notFound)
    (hT : k * 15 < env.timeout) :
    (resourceRelayNamespaceDelete id env).outcome = .ok () ∧
    (resourceRelayNamespaceDelete id env).probeTimes
      = (List.range (k + 1)).map (fun m => m * 15) ∧
    (resourceRelayNamespaceDelete id env).probeTimes.length = k + 1 ∧
    List.Chain' (fun a b => a + 15 ≤ b)
      (resourceRelayNamespaceDelete id env).probeTimes := by
  have hw := relayWaitAux_pending_then_deleted id env.get env.timeout k 0
      (env.timeout / 15 + 2) (fun m hm => by simpa using h m hm)
      (by simpa using hk) (by simpa using hT)
      (fuel_adequate env.timeout k hT)
  have hmap : (List.range (k + 1)).map (fun m => (0 + m) * 15)
      = (List.range (k + 1)).map (fun m => m * 15) :=
    List.map_congr_left (fun a _ => by omega)
  simp only [resourceRelayNamespaceDelete, hp, hd, waitForState, hw, hmap]
  refine ⟨by simp, by simp, by simp, ?_⟩
  rw [List.chain'_map, List.chain'_range_succ]
  intro m _
  omega

/-- C5 witness: a probe stream that finds the resource twice and then
observes a 404 performs exactly three probes, at 0, 15 and 30 seconds. -/
theorem relayDelete_poll_floor_witness :
    (resourceRelayNamespaceDelete "ns5"
        ⟨none, none, fun n => if n < 2 then .ok else .notFound, 3600⟩).outcome
      = .ok () ∧
    (resourceRelayNamespaceDelete "ns5"
        ⟨none, none, fun n => if n < 2 then .ok else .notFound, 3600⟩).probeTimes
      = (List.range 3).map (fun m => m * 15) ∧
    (resourceRelayNamespaceDelete "ns5"
        ⟨none, none, fun n => if n < 2 then .ok else .notFound, 3600⟩).probeTimes.length
      = 3 ∧
    List.Chain' (fun a b => a + 15 ≤ b)
      (resourceRelayNamespaceDelete "ns5"
        ⟨none, none, fun n => if n < 2 then .ok else .notFound, 3600⟩).probeTimes :=
  relayDelete_poll_floor "ns5"
    ⟨none, none, fun n => if n < 2 then .ok else .notFound, 3600⟩ 2
    rfl rfl
    (fun m hm => by
      have : m = 0 ∨ m = 1 := by omega
      rcases this with rfl | rfl <;> rfl)
    rfl (by norm_num)

/-- C6: exactly one delete request per run — once the id parses, the
request trace is one `Delete` followed only by read-only `Get` probes (one
per poll tick), and a successful outcome can only arise from a probe
having observed NotFound, never from the delete operation's own status. -/
theorem relayDelete_single_delete_request (id : String) (env : DeleteEnv)
    (hp : env.parseErr = none) :
    (resourceRelayNamespaceDelete id env).calls
      = ApiCall.deleteReq ::
        List.replicate (resourceRelayNamespaceDelete id env).probeTimes.length
          ApiCall.getReq ∧
    (resourceRelayNamespaceDelete id env).calls.count ApiCall.deleteReq = 1 ∧
    ((resourceRelayNamespaceDelete id env).outcome = .ok () →
      ∃ n, env.get n = .notFound) := by
  cases hdel : env.deleteErr with
  | some e =>
    simp only [resourceRelayNamespaceDelete, hp, hdel]
    refine ⟨by simp, by simp, ?_⟩
    intro hcontra
    simp at hcontra
  | none =>
    simp only [resourceRelayNamespaceDelete, hp, hdel]
    have hconst : ∀ l : List Nat,
        l.map (fun _ => ApiCall.getReq) = List.replicate l.length ApiCall.getReq := by
      intro l
      induction l with
      | nil => rfl
      | cons a l ih => simp [ih, List.replicate_succ]
    refine ⟨by simp [hconst], ?_, ?_⟩
    · simp [hconst, List.count_cons, List.count_replicate]
    · intro hok
      cases hout : (waitForState
          (fun n => relayNamespaceDeleteRefreshFunc id (env.get n))
          ["Deleted"] 15 env.timeout).outcome with
      | ok u =>
        exact relayWaitAux_ok_imp_notFound id env.get env.timeout
          (env.timeout / 15 + 2) 0 (by simpa [waitForState] using hout)
      | error e =>
        rw [hout] at hok
        simp at hok

/-- C6 witness: a run whose probe immediately observes a 404 issues
exactly one delete request, one read-only probe, and succeeds through
that probe. -/
theorem relayDelete_single_delete_request_witness :
    (resourceRelayNamespaceDelete "ns6" ⟨none, none, fun _ => .notFound, 3600⟩).calls
      = ApiCall.deleteReq ::
        List.replicate
          (resourceRelayNamespaceDelete "ns6"
            ⟨none, none, fun _ => .notFound, 3600⟩).probeTimes.length ApiCall.getReq ∧
    (resourceRelayNamespaceDelete "ns6"
        ⟨none, none, fun _ => .notFound, 3600⟩).calls.count ApiCall.deleteReq = 1 ∧
    ((resourceRelayNamespaceDelete "ns6"
        ⟨none, none, fun _ => .notFound, 3600⟩).outcome = .ok () →
      ∃ n, (⟨none, none, fun _ => .notFound, 3600⟩ : DeleteEnv).get n
        = GetResult.notFound) :=
  relayDelete_single_delete_request "ns6" ⟨none, none, fun _ => .notFound, 3600⟩ rfl

/-- C4: the delete-poll refresh step is an exact three-way case split —
it yields ("Deleted", no error) iff the probe observed a 404, an error
(state "Error") iff the probe failed with a non-404 error, ("Pending", no
error) iff the probe succeeded, and no state outside these three is ever
produced; and both "Deleted" and the error outcome are terminal for the
wait loop: a tick producing either performs no further probe. -/
theorem relayRefresh_three_way_case_split (id : String) (g : GetResult) :
    ((relayNamespaceDeleteRefreshFunc id g = ("Deleted", none) ↔ g = .notFound) ∧
     ((∃ e, relayNamespaceDeleteRefreshFunc id g = ("Error", some e)) ↔
       ∃ m, g = .failed m) ∧
     ((relayNamespaceDeleteRefreshFunc id g).2.isSome ↔ ∃ m, g = .failed m) ∧
     (relayNamespaceDeleteRefreshFunc id g = ("Pending", none) ↔ g = .ok) ∧
     ((relayNamespaceDeleteRefreshFunc id g).1 = "Deleted" ∨
      (relayNamespaceDeleteRefreshFunc id g).1 = "Error" ∨
      (relayNamespaceDeleteRefreshFunc id g).1 = "Pending")) ∧
    (∀ T fuel n, ¬ T ≤ n * 15 → g = .notFound →
      (waitAux (fun _ => relayNamespaceDeleteRefreshFunc id g) ["Deleted"] 15 T n
        (fuel + 1)).probeTimes = [n * 15]) ∧
    (∀ T fuel n msg, ¬ T ≤ n * 15 → g = .failed msg →
      (waitAux (fun _ => relayNamespaceDeleteRefreshFunc id g) ["Deleted"] 15 T n
        (fuel + 1)).probeTimes = [n * 15]) := by
  refine ⟨by cases g <;> simp [relayNamespaceDeleteRefreshFunc], ?_, ?_⟩
  · intro T fuel n hdl hg
    subst hg
    rw [waitAux_step_target (fun _ => relayNamespaceDeleteRefreshFunc id .notFound)
      ["Deleted"] 15 T n fuel "Deleted" hdl rfl (by decide)]
  · intro T fuel n msg hdl hg
    subst hg
    rw [waitAux_step_err (fun _ => relayNamespaceDeleteRefreshFunc id (.failed msg))
      ["Deleted"] 15 T n fuel "Error" ("retrieving " ++ id ++ ": " ++ msg) hdl rfl]

/-- C4 witness: at concrete inputs a 404 probe refreshes to Deleted and
stops the wait after its single probe, as does a non-404 failure. -/
theorem relayRefresh_three_way_case_split_witness :
    relayNamespaceDeleteRefreshFunc "x" .notFound = ("Deleted", none) ∧
    (waitAux (fun _ => relayNamespaceDeleteRefreshFunc "x" GetResult.notFound)
        ["Deleted"] 15 60 0 1).probeTimes = [0] ∧
    (waitAux (fun _ => relayNamespaceDeleteRefreshFunc "x" (GetResult.failed "boom"))
        ["Deleted"] 15 60 0 1).probeTimes = [0] :=
  ⟨((relayRefresh_three_way_case_split "x" .notFound).1.1).mpr rfl,
   (relayRefresh_three_way_case_split "x" .notFound).2.1 60 0 0 (by norm_num) rfl,
   (relayRefresh_three_way_case_split "x" (.failed "boom")).2.2 60 0 0 "boom"
     (by norm_num) rfl⟩

/-- C7: Fetch treats NotFound as a normal outcome in both cited Read
implementations — on a 404 the Read operation clears the stored id and
returns success, while any non-404 failure of the read request surfaces an
error carrying the identity and leaves the stored id unchanged; shown for
the relay namespace read and the machine-learning workspace read. -/
theorem read_notFound_is_success (storedId : String) (env : ReadEnv)
    (mlStoredId mlWsName mlRgName : String) (mlEnv : MLReadEnv)
    (hp : env.parseErr = none) (hmp : mlEnv.parseErr = none) :
    (env.get = .notFound →
      resourceRelayNamespaceRead storedId env = ("", .ok ())) ∧
    (∀ msg, env.get = .failed msg →
      resourceRelayNamespaceRead storedId env =
        (storedId, .error ("retrieving " ++ storedId ++ ": " ++ msg))) ∧
    (mlEnv.get = .notFound →
      resourceMachineLearningWorkspaceRead mlStoredId mlWsName mlRgName mlEnv
        = ("", .ok ())) ∧
    (∀ msg, mlEnv.get = .failed msg →
      resourceMachineLearningWorkspaceRead mlStoredId mlWsName mlRgName mlEnv
        = (mlStoredId, .error ("making Read request on Workspace \"" ++ mlWsName
            ++ "\" (Resource Group \"" ++ mlRgName ++ "\"): " ++ msg))) := by
  refine ⟨?_, ?_, ?_, ?_⟩
  · intro h404
    simp [resourceRelayNamespaceRead, hp, h404]
  · intro msg hfail
    simp [resourceRelayNamespaceRead, hp, hfail]
  · intro h404
    simp [resourceMachineLearningWorkspaceRead, hmp, h404]
  · intro msg hfail
    simp [resourceMachineLearningWorkspaceRead, hmp, hfail]

/-- C7 witness: concrete 404 reads clear the stored id and succeed for
both resources; concrete non-404 failures keep the id and error with the
identity in the message. -/
theorem read_notFound_is_success_witness :
    resourceRelayNamespaceRead "idA" ⟨none, .notFound, none⟩ = ("", .ok ()) ∧
    resourceRelayNamespaceRead "idA" ⟨none, .failed "boom", none⟩ =
      ("idA", .error "retrieving idA: boom") ∧
    resourceMachineLearningWorkspaceRead "idW" "ws1" "rg1" ⟨none, .notFound, none⟩
      = ("", .ok ()) ∧
    resourceMachineLearningWorkspaceRead "idW" "ws1" "rg1" ⟨none, .failed "boom", none⟩
      = ("idW",
         .error "making Read request on Workspace \"ws1\" (Resource Group \"rg1\"): boom") :=
  ⟨(read_notFound_is_success "idA" ⟨none, .notFound, none⟩ "idW" "ws1" "rg1"
      ⟨none, .notFound, none⟩ rfl rfl).1 rfl,
   (read_notFound_is_success "idA" ⟨none, .failed "boom", none⟩ "idW" "ws1" "rg1"
      ⟨none, .notFound, none⟩ rfl rfl).2.1 "boom" rfl,
   (read_notFound_is_success "idA" ⟨none, .notFound, none⟩ "idW" "ws1" "rg1"
      ⟨none, .notFound, none⟩ rfl rfl).2.2.1 rfl,
   (read_notFound_is_success "idA" ⟨none, .notFound, none⟩ "idW" "ws1" "rg1"
      ⟨none, .failed "boom", none⟩ rfl rfl).2.2.2 "boom" rfl⟩

/-- C8: new-resource guard with atomicity — on a create of a resource
marked new whose up-front existence read succeeds (the remote resource
already exists), both the relay namespace and the machine-learning
workspace create return the import-as-exists error with only the single
existence Get issued, no create-or-update request, and the stored id not
set. -/
theorem create_new_resource_guard (id mlId : String)
    (env : CreateEnv) (mlEnv : MLEnv)
    (h1 : env.isNew = true) (h2 : env.existingGet = .ok)
    (h3 : mlEnv.isNew = true) (h4 : mlEnv.existingGet = .ok) :
    resourceRelayNamespaceCreateUpdate id env =
      ⟨.error (.importAsExists "azurerm_relay_namespace" id), [.getReq], false⟩ ∧
    resourceMachineLearningWorkspaceCreateOrUpdate mlId mlEnv =
      ⟨.error (.importAsExists "azurerm_machine_learning_workspace" mlId),
       [.getReq], none, false⟩ := by
  constructor
  · simp [resourceRelayNamespaceCreateUpdate, h1, h2, newResourceGuard]
  · simp [resourceMachineLearningWorkspaceCreateOrUpdate, h3, h4, newResourceGuard]

/-- C8 witness: concrete new-resource creates whose existence read finds
the resource stop with import-as-exists, no create request and no id
set. -/
theorem create_new_resource_guard_witness :
    resourceRelayNamespaceCreateUpdate "r1" ⟨true, .ok, none, none⟩ =
      ⟨.error (.importAsExists "azurerm_relay_namespace" "r1"), [.getReq], false⟩ ∧
    resourceMachineLearningWorkspaceCreateOrUpdate "w1"
        ⟨true, .ok, none, "Default", none, none, false, false, false, none, none⟩ =
      ⟨.error (.importAsExists "azurerm_machine_learning_workspace" "w1"),
       [.getReq], none, false⟩ :=
  create_new_resource_guard "r1" "w1" ⟨true, .ok, none, none⟩
    ⟨true, .ok, none, "Default", none, none, false, false, false, none, none⟩
    rfl rfl rfl rfl

/-- C9: mutual kind/feature_store validation — if kind is "Default"
(case-insensitively) with a feature_store block supplied, or kind is not
"Default" with no feature_store block, the machine-learning workspace
create-or-update returns an error and never issues a create-or-update
request; and whenever kind is not "Default" and a request is issued, that
request carries the expanded feature-store settings. -/
theorem mlCreate_feature_store_validation (id : String) (env : MLEnv) :
    (((eqFold env.kind "Default" = true ∧ env.featureStore ≠ none) ∨
      (eqFold env.kind "Default" = false ∧ env.featureStore = none)) →
      (∃ e, (resourceMachineLearningWorkspaceCreateOrUpdate id env).outcome
        = .error e) ∧
      ApiCall.createReq ∉ (resourceMachineLearningWorkspaceCreateOrUpdate id env).calls) ∧
    (eqFold env.kind "Default" = false →
      ∀ req, (resourceMachineLearningWorkspaceCreateOrUpdate id env).sentRequest
          = some req →
        req.FeatureStoreSettings
          = expandMachineLearningWorkspaceFeatureStore env.featureStore) := by
  have hfs : ∀ hcase :
      (eqFold env.kind "Default" = true ∧ env.featureStore ≠ none) ∨
      (eqFold env.kind "Default" = false ∧ env.featureStore = none),
      ∃ e, mlFeatureStoreCheck env.kind
        (expandMachineLearningWorkspaceFeatureStore env.featureStore) = .error e := by
    intro hcase
    rcases hcase with ⟨hk, hsome⟩ | ⟨hk, hnone⟩
    · obtain ⟨raw, hraw⟩ : ∃ raw, env.featureStore = some raw := by
        cases h : env.featureStore with
        | none => exact absurd h hsome
        | some raw => exact ⟨raw, rfl⟩
      refine ⟨.validation "`feature_store` can only be set when `kind` is `FeatureStore`", ?_⟩
      simp [mlFeatureStoreCheck, hk, hraw, expandMachineLearningWorkspaceFeatureStore]
    · refine ⟨.validation "`feature_store` can not be empty when `kind` is `FeatureStore`", ?_⟩
      simp [mlFeatureStoreCheck, hk, hnone, expandMachineLearningWorkspaceFeatureStore]
  constructor
  · intro hcase
    obtain ⟨e0, he0⟩ := hfs hcase
    unfold resourceMachineLearningWorkspaceCreateOrUpdate
    cases hguard : (if env.isNew then
        newResourceGuard "azurerm_machine_learning_workspace" id env.existingGet
      else none) with
    | some e => cases henv : env.isNew <;> simp [hguard, henv]
    | none =>
      cases hid : env.identityErr with
      | some e => cases henv : env.isNew <;> simp [hguard, hid, henv]
      | none =>
        cases hsc : serverlessComputeGuard
            (expandMachineLearningWorkspaceServerlessCompute env.serverlessCompute)
            env.publicNetworkAccessEnabled env.oldPublicIp env.newPublicIp with
        | some e => cases henv : env.isNew <;> simp [hguard, hid, hsc, henv]
        | none => cases henv : env.isNew <;> simp [hguard, hid, hsc, he0, henv]
  · intro hk req hreq
    unfold resourceMachineLearningWorkspaceCreateOrUpdate at hreq
    cases hguard : (if env.isNew then
        newResourceGuard "azurerm_machine_learning_workspace" id env.existingGet
      else none) with
    | some e => simp [hguard] at hreq
    | none =>
      cases hid : env.identityErr with
      | some e => simp [hguard, hid] at hreq
      | none =>
        cases hsc : serverlessComputeGuard
            (expandMachineLearningWorkspaceServerlessCompute env.serverlessCompute)
            env.publicNetworkAccessEnabled env.oldPublicIp env.newPublicIp with
        | some e => simp [hguard, hid, hsc] at hreq
        | none =>
          cases hchk : mlFeatureStoreCheck env.kind
              (expandMachineLearningWorkspaceFeatureStore env.featureStore) with
          | error e => simp [hguard, hid, hsc, hchk] at hreq
          | ok fsField =>
            have hfield : fsField
                = expandMachineLearningWorkspaceFeatureStore env.featureStore := by
              cases hexp : expandMachineLearningWorkspaceFeatureStore env.featureStore with
              | none => simp [mlFeatureStoreCheck, hk, hexp] at hchk
              | some f =>
                simp only [mlFeatureStoreCheck, hk, hexp, Bool.false_eq_true,
                  if_false] at hchk
                exact (Except.ok.injEq _ _).mp hchk.symm ▸ rfl
            cases henv : env.createErr with
            | some e =>
              simp [hguard, hid, hsc, hchk, henv] at hreq
              rw [← hreq, hfield]
            | none =>
              cases hre : env.readErr with
              | some e =>
                simp [hguard, hid, hsc, hchk, henv, hre] at hreq
                rw [← hreq, hfield]
              | none =>
                simp [hguard, hid, hsc, hchk, henv, hre] at hreq
                rw [← hreq, hfield]

/-- C9 witness: a Default-kind workspace with a feature_store block errors
without a create request, and a FeatureStore-kind workspace that reaches
the request attaches the expanded settings. -/
theorem mlCreate_feature_store_validation_witness :
    ((∃ e, (resourceMachineLearningWorkspaceCreateOrUpdate "w9"
        ⟨false, .ok, none, "Default", some ⟨"3.1", "", ""⟩, none, false, false, false,
         none, none⟩).outcome = .error e) ∧
      ApiCall.createReq ∉ (resourceMachineLearningWorkspaceCreateOrUpdate "w9"
        ⟨false, .ok, none, "Default", some ⟨"3.1", "", ""⟩, none, false, false, false,
         none, none⟩).calls) ∧
    (∀ req, (resourceMachineLearningWorkspaceCreateOrUpdate "w9b"
        ⟨false, .ok, none, "FeatureStore", some ⟨"3.1", "", ""⟩, none, false, false,
         false, none, none⟩).sentRequest = some req →
      req.FeatureStoreSettings = expandMachineLearningWorkspaceFeatureStore
        (some ⟨"3.1", "", ""⟩)) :=
  ⟨(mlCreate_feature_store_validation "w9"
      ⟨false, .ok, none, "Default", some ⟨"3.1", "", ""⟩, none, false, false, false,
       none, none⟩).1 (Or.inl ⟨by decide, by simp⟩),
   (mlCreate_feature_store_validation "w9b"
      ⟨false, .ok, none, "FeatureStore", some ⟨"3.1", "", ""⟩, none, false, false,
       false, none, none⟩).2 (by decide)⟩

/-- C10: serverless-compute round-trip — expanding a block negates
`public_ip_enabled` into `ServerlessComputeNoPublicIP` and records a
non-empty `subnet_id` as the custom subnet; flattening the expansion
negates the flag back to the original `public_ip_enabled` and restores the
subnet exactly when it was non-empty, omitting the key otherwise. -/
theorem serverlessCompute_expand_flatten_roundTrip (b : Bool) (s : String) :
    expandMachineLearningWorkspaceServerlessCompute (some ⟨b, s⟩) =
      some ⟨some (!b), if s = "" then none else some s⟩ ∧
    flattenMachineLearningWorkspaceServerlessCompute
        (expandMachineLearningWorkspaceServerlessCompute (some ⟨b, s⟩)) =
      [⟨if s = "" then none else some s, some b⟩] := by
  by_cases h : s = "" <;>
    simp [expandMachineLearningWorkspaceServerlessCompute,
      flattenMachineLearningWorkspaceServerlessCompute, h]

end AzureRM
